import Mathlib

/-!
Verification of the valuePM value-aggregation logic.

The definitions below are a shallow embedding of the Python sources:

* `value_project_mgmt.py` — the legacy in-memory model (`Project`,
  `ValueMetric`, `Measurement`, `record_measurement`, `get_current_value`,
  `calculate_roi`, `get_value_dashboard`, `ValueProjectManager.get_portfolio_overview`).
* `src/services/project_service.py` — `ProjectService.get_project_dashboard`
  (which refreshes each active metric's cached `current_value`).
* `src/services/measurement_service.py` — `MeasurementService.create_measurement`.

Python floats are modelled as rationals (ℚ); the arithmetic involved is
division, subtraction and clamping, which is exact on the values of interest.
Timestamps (`datetime`) are modelled as natural numbers; where the Python code
calls `datetime.now()`/`datetime.utcnow` (or lets the database column default
assign it), the model takes the clock value as an explicit parameter.
Python dicts are modelled as insertion-ordered association lists
(`dictInsert` mirrors dict assignment: update-in-place for an existing key,
append for a new one).
-/

namespace ValuePM

/-- `MetricType` enum from `value_project_mgmt.py` / `src/core/enums.py`. -/
inductive MetricType where
  | currency
  | percentage
  | time
  | count
  | score
deriving DecidableEq

/-- `ValueMetric` dataclass / `value_metrics` row: the fields the value
computations read (`metric_type`, `target_value`, `baseline_value`, the cached
`current_value`, `is_active`), plus identity and display name. -/
structure ValueMetric where
  id : String
  name : String
  metric_type : MetricType
  target_value : ℚ
  baseline_value : ℚ
  current_value : Option ℚ
  is_active : Bool
deriving DecidableEq

/-- `Measurement` dataclass / `measurements` row: the fields the value
computations read. -/
structure Measurement where
  metric_id : String
  value : ℚ
  measured_at : ℕ
  notes : String
deriving DecidableEq

/-- `Deliverable`: only its `status` participates in the dashboard. -/
structure Deliverable where
  name : String
  status : String
deriving DecidableEq

/-- The project aggregate: `Project.metrics` is a dict in insertion order
(modelled as a list, ids unique), `measurements` a list, `deliverables` a dict
whose values are traversed in insertion order. -/
structure Project where
  name : String
  project_type : String
  status : String
  start_date : Option ℕ
  metrics : List ValueMetric
  measurements : List Measurement
  deliverables : List Deliverable
deriving DecidableEq

/-- Python dict assignment `d[k] = v` on an insertion-ordered dict: replace in
place when the key exists, append otherwise. -/
def dictInsert {α : Type} (k : String) (v : α) (d : List (String × α)) :
    List (String × α) :=
  if d.any (fun kv => kv.1 == k) then
    d.map (fun kv => if kv.1 == k then (k, v) else kv)
  else d ++ [(k, v)]

/-- Python `max(ms, key=lambda m: m.measured_at)` starting from `m0`: the first
element with maximal `measured_at` (the accumulator is replaced only on a
strictly larger key, as `max` keeps the earliest maximum). -/
def maxByMeasuredAt (m0 : Measurement) (ms : List Measurement) : Measurement :=
  ms.foldl (fun best x => if best.measured_at < x.measured_at then x else best) m0

/-- `Project.get_current_value`: value of the most recent measurement for the
metric, `None` when the metric has no measurements. -/
def getCurrentValue (p : Project) (metricId : String) : Option ℚ :=
  match p.measurements.filter (fun m => m.metric_id == metricId) with
  | [] => none
  | m :: ms => some (maxByMeasuredAt m ms).value

/-- The raw progress value computed in `Project.get_value_dashboard`
(lines 164-167): `0.0` unless a current value exists and `target ≠ baseline`,
in which case `(current - baseline) / (target - baseline)`. -/
def progressRaw (metric : ValueMetric) (current : Option ℚ) : ℚ :=
  match current with
  | none => 0
  | some c =>
      if metric.target_value ≠ metric.baseline_value then
        (c - metric.baseline_value) / (metric.target_value - metric.baseline_value)
      else 0

/-- Python `min(a, b)`: `a` when `a <= b`, else `b`. -/
def pymin (a b : ℚ) : ℚ :=
  if a ≤ b then a else b

/-- Python `max(a, b)`: `a` when `a >= b`, else `b`. -/
def pymax (a b : ℚ) : ℚ :=
  if b ≤ a then a else b

/-- `progress_percent` as stored in the dashboard (line 173):
`min(100, max(0, progress * 100))`. -/
def progressPercent (metric : ValueMetric) (current : Option ℚ) : ℚ :=
  pymin 100 (pymax 0 (progressRaw metric current * 100))

/-- The per-metric branch of `Project.calculate_roi` (lines 136-143): currency
metrics contribute their current value, percentage metrics with positive
baseline contribute the relative improvement, everything else contributes
nothing; no contribution without a current value. -/
def roiContribution (metric : ValueMetric) (current : Option ℚ) : Option ℚ :=
  match current with
  | none => none
  | some c =>
      match metric.metric_type with
      | MetricType.currency => some c
      | MetricType.percentage =>
          if metric.baseline_value > 0 then
            some ((c - metric.baseline_value) / metric.baseline_value)
          else none
      | _ => none

/-- One iteration of the `calculate_roi` loop over `self.metrics.items()`. -/
def roiStep (p : Project) (d : List (String × ℚ)) (metric : ValueMetric) :
    List (String × ℚ) :=
  match roiContribution metric (getCurrentValue p metric.id) with
  | some r => dictInsert metric.name r d
  | none => d

/-- `Project.calculate_roi`: the `roi_data` dict keyed by metric name. -/
def calculateRoi (p : Project) : List (String × ℚ) :=
  p.metrics.foldl (roiStep p) []

/-- The per-project `current_roi` in `ValueProjectManager.get_portfolio_overview`
(line 345): `sum(roi_summary.values()) if roi_summary else 0.0`; the sum over
an empty dict is `0.0` as well. -/
def currentRoi (p : Project) : ℚ :=
  ((calculateRoi p).map (fun kv => kv.2)).sum

/-- Stable descending insertion by `measured_at`: an incoming element passes
over strictly-later elements and lands before the first element that is not
strictly later, so elements with equal timestamps keep their original relative
order — the behaviour of Python's stable `sorted(..., reverse=True)`. -/
def insertByMeasuredAtDesc (m : Measurement) : List Measurement → List Measurement
  | [] => [m]
  | x :: xs =>
      if m.measured_at < x.measured_at then x :: insertByMeasuredAtDesc m xs
      else m :: x :: xs

/-- `sorted(self.measurements, key=lambda m: m.measured_at, reverse=True)`. -/
def sortByMeasuredAtDesc : List Measurement → List Measurement
  | [] => []
  | x :: xs => insertByMeasuredAtDesc x (sortByMeasuredAtDesc xs)

/-- The recent-measurements window of `get_value_dashboard` (line 177):
sort all of the project's measurements by descending timestamp, keep the
first `n` (the dashboard uses `n = 5`). -/
def recentMeasurements (p : Project) (n : ℕ) : List Measurement :=
  (sortByMeasuredAtDesc p.measurements).take n

/-- One `metrics_summary` entry (lines 169-174 of `get_value_dashboard`). -/
structure MetricSummary where
  current : Option ℚ
  target : ℚ
  baseline : ℚ
  progress_percent : ℚ
deriving DecidableEq

/-- One iteration of the metrics-summary loop (lines 163-174). -/
def summaryStep (p : Project) (d : List (String × MetricSummary))
    (metric : ValueMetric) : List (String × MetricSummary) :=
  let current := getCurrentValue p metric.id
  dictInsert metric.name
    ⟨current, metric.target_value, metric.baseline_value,
      progressPercent metric current⟩ d

/-- The `metrics_summary` dict of `get_value_dashboard`, keyed by metric name. -/
def metricsSummary (p : Project) : List (String × MetricSummary) :=
  p.metrics.foldl (summaryStep p) []

/-- `status_counts[status] = status_counts.get(status, 0) + 1` on an
insertion-ordered dict. -/
def bumpStatus (k : String) (d : List (String × ℕ)) : List (String × ℕ) :=
  if d.any (fun kv => kv.1 == k) then
    d.map (fun kv => if kv.1 == k then (kv.1, kv.2 + 1) else kv)
  else d ++ [(k, 1)]

/-- The `deliverables_status` tally of `get_value_dashboard` (lines 188-191). -/
def deliverableStatusCounts (p : Project) : List (String × ℕ) :=
  p.deliverables.foldl (fun d dv => bumpStatus dv.status d) []

/-- One `recent_measurements` dashboard entry (lines 180-185). -/
structure RecentEntry where
  metric : String
  value : ℚ
  date : ℕ
  notes : String
deriving DecidableEq

/-- Dict lookup `self.metrics[metric_id]` (first metric with the id;
ids are dict keys, hence unique). -/
def findMetric (p : Project) (metricId : String) : Option ValueMetric :=
  p.metrics.find? (fun m => m.id == metricId)

/-- The `recent_measurements` list of `get_value_dashboard` (lines 178-185).
`self.metrics[measurement.metric_id]` raises `KeyError` when a measurement
references an unknown metric; the embedding returns `none` in that case. -/
def recentEntries (p : Project) : Option (List RecentEntry) :=
  (recentMeasurements p 5).mapM (fun m =>
    (findMetric p m.metric_id).map (fun met =>
      RecentEntry.mk met.name m.value m.measured_at m.notes))

/-- The dashboard record built by `Project.get_value_dashboard`. -/
structure Dashboard where
  info_name : String
  info_type : String
  info_status : String
  duration_days : ℤ
  metrics_summary : List (String × MetricSummary)
  recent_measurements : List RecentEntry
  roi_summary : List (String × ℚ)
  deliverables_status : List (String × ℕ)
deriving DecidableEq

/-- `Project.get_value_dashboard`, with the object state threaded explicitly:
the method only reads `self`, so the returned state is the input project.
`today` models `datetime.now().date()`. -/
def getValueDashboard (today : ℕ) (p : Project) : Option Dashboard × Project :=
  match recentEntries p with
  | none => (none, p)
  | some entries =>
      (some ⟨p.name, p.project_type, p.status,
        (match p.start_date with
         | some sd => (today : ℤ) - (sd : ℤ)
         | none => 0),
        metricsSummary p, entries, calculateRoi p, deliverableStatusCounts p⟩,
       p)

/-- `Project.record_measurement`, state threaded explicitly: `ValueError` when
the metric id is not a key of `self.metrics`, otherwise append one measurement
stamped with the clock value `now` (`datetime.now()` in the source). -/
def recordMeasurement (p : Project) (metricId : String) (value : ℚ)
    (notes : String) (now : ℕ) : Except String Unit × Project :=
  if p.metrics.any (fun m => m.id == metricId) then
    (Except.ok (),
     { p with measurements := p.measurements ++ [⟨metricId, value, now, notes⟩] })
  else
    (Except.error ("Metric " ++ metricId ++ " not found in project"), p)

/-- Payload of `MeasurementService.create_measurement`
(`schemas.MeasurementCreate` plus the `measured_at` the database column default
assigns from the clock at insert time). -/
structure MeasurementCreate where
  metric_id : String
  value : ℚ
  notes : String
  measured_at : ℕ
deriving DecidableEq

/-- `query(ValueMetric).filter(id == metricId).first()` then
`metric.current_value = v`: overwrite the cached current value of the first
metric with the id, leave everything else alone. -/
def setCachedValueFirst (metricId : String) (v : ℚ) :
    List ValueMetric → List ValueMetric
  | [] => []
  | m :: ms =>
      if m.id == metricId then { m with current_value := some v } :: ms
      else m :: setCachedValueFirst metricId v ms

/-- `MeasurementService.create_measurement`: insert the new measurement row and
unconditionally overwrite the metric's cached `current_value` with the new
value (no timestamp comparison); when no metric has the id, only the insert
happens. -/
def createMeasurement (mc : MeasurementCreate) (db : Project) : Project :=
  { db with
    measurements :=
      db.measurements ++ [⟨mc.metric_id, mc.value, mc.measured_at, mc.notes⟩],
    metrics := setCachedValueFirst mc.metric_id mc.value db.metrics }

/-- The cached `current_value` of the (first) metric with the given id. -/
def cachedValue (db : Project) (metricId : String) : Option ℚ :=
  (findMetric db metricId).bind (fun m => m.current_value)

/-- The state mutation performed by `ProjectService.get_project_dashboard`
(lines 102-107): for every active metric, `metric.current_value` is overwritten
with the value of its latest measurement (`None` when it has none); inactive
metrics are skipped by the `continue`. -/
def serviceDashboardRefresh (db : Project) : Project :=
  { db with
    metrics := db.metrics.map (fun m =>
      if m.is_active then { m with current_value := getCurrentValue db m.id }
      else m) }

/-- A metric with its mutable cache field blanked, to state which fields the
service dashboard leaves untouched. -/
def eraseCache (m : ValueMetric) : ValueMetric :=
  { m with current_value := none }

/-- `ProjectTemplateFactory.create_infrastructure_template`, first metric:
System Availability, percentage, target 99.9, baseline 95.0 (uuids are
modelled as fixed strings). -/
def availabilityMetric : ValueMetric :=
  ⟨"uuid-availability", "System Availability", MetricType.percentage,
    999/10, 95, none, true⟩

/-- `ProjectTemplateFactory.create_infrastructure_template`, third metric:
Infrastructure Cost, currency, target 8000, baseline 10000. -/
def infrastructureCostMetric : ValueMetric :=
  ⟨"uuid-infra-cost", "Infrastructure Cost", MetricType.currency,
    8000, 10000, none, true⟩

/-! ### Helper lemmas -/

theorem pymin_eq_min (a b : ℚ) : pymin a b = min a b :=
  (min_def a b).symm

theorem pymax_eq_max (a b : ℚ) : pymax a b = max a b := by
  unfold pymax
  rcases le_total a b with h | h
  · rcases eq_or_lt_of_le h with rfl | hlt
    · simp
    · rw [if_neg (not_le.mpr hlt), max_eq_right h]
  · rw [if_pos h, max_eq_left h]

theorem mem_dictInsert {α : Type} {k : String} {v : α} {d : List (String × α)}
    {kv : String × α} (h : kv ∈ dictInsert k v d) : kv = (k, v) ∨ kv ∈ d := by
  rw [dictInsert] at h
  split at h
  · obtain ⟨kv', hkv', hmap⟩ := List.mem_map.mp h
    by_cases hk : kv'.1 == k
    · rw [if_pos hk] at hmap
      exact Or.inl hmap.symm
    · rw [if_neg hk] at hmap
      exact Or.inr (hmap ▸ hkv')
  · rcases List.mem_append.mp h with hd | hs
    · exact Or.inr hd
    · exact Or.inl (List.mem_singleton.mp hs)

theorem keys_dictInsert {α : Type} {k : String} {v : α} {d : List (String × α)}
    (hk : ∀ kv ∈ d, kv.1 ≠ k) : dictInsert k v d = d ++ [(k, v)] := by
  rw [dictInsert, if_neg]
  simp only [List.any_eq_true, beq_iff_eq, not_exists, not_and]
  intro kv hkv
  exact hk kv hkv

theorem length_insertByMeasuredAtDesc (m : Measurement) (l : List Measurement) :
    (insertByMeasuredAtDesc m l).length = l.length + 1 := by
  induction l with
  | nil => rfl
  | cons x xs ih =>
      rw [insertByMeasuredAtDesc]
      split
      · simp [ih]
      · simp

theorem perm_insertByMeasuredAtDesc (m : Measurement) (l : List Measurement) :
    List.Perm (insertByMeasuredAtDesc m l) (m :: l) := by
  induction l with
  | nil => exact List.Perm.refl _
  | cons x xs ih =>
      rw [insertByMeasuredAtDesc]
      split
      · exact ((ih.cons x).trans (List.Perm.swap m x xs))
      · exact List.Perm.refl _

theorem pairwise_insertByMeasuredAtDesc {m : Measurement} {l : List Measurement}
    (h : l.Pairwise (fun a b => b.measured_at ≤ a.measured_at)) :
    (insertByMeasuredAtDesc m l).Pairwise (fun a b => b.measured_at ≤ a.measured_at) := by
  induction l with
  | nil => exact List.pairwise_singleton _ m
  | cons x xs ih =>
      rw [insertByMeasuredAtDesc]
      rw [List.pairwise_cons] at h
      split
      · rename_i hlt
        refine List.pairwise_cons.mpr ⟨?_, ih h.2⟩
        intro y hy
        rcases List.mem_cons.mp ((perm_insertByMeasuredAtDesc m xs).mem_iff.mp hy) with rfl | hy'
        · exact le_of_lt hlt
        · exact h.1 y hy'
      · rename_i hge
        refine List.pairwise_cons.mpr ⟨?_, List.pairwise_cons.mpr h⟩
        intro y hy
        rcases List.mem_cons.mp hy with rfl | hy'
        · exact le_of_not_lt hge
        · exact le_trans (h.1 y hy') (le_of_not_lt hge)

theorem perm_sortByMeasuredAtDesc (l : List Measurement) :
    List.Perm (sortByMeasuredAtDesc l) l := by
  induction l with
  | nil => exact List.Perm.refl _
  | cons x xs ih =>
      rw [sortByMeasuredAtDesc]
      exact (perm_insertByMeasuredAtDesc x (sortByMeasuredAtDesc xs)).trans (ih.cons x)

theorem pairwise_sortByMeasuredAtDesc (l : List Measurement) :
    (sortByMeasuredAtDesc l).Pairwise (fun a b => b.measured_at ≤ a.measured_at) := by
  induction l with
  | nil => exact List.Pairwise.nil
  | cons x xs ih =>
      rw [sortByMeasuredAtDesc]
      exact pairwise_insertByMeasuredAtDesc ih

theorem maxByMeasuredAt_spec (ms : List Measurement) (m0 : Measurement) :
    (maxByMeasuredAt m0 ms = m0 ∨ maxByMeasuredAt m0 ms ∈ ms) ∧
      m0.measured_at ≤ (maxByMeasuredAt m0 ms).measured_at ∧
      ∀ m ∈ ms, m.measured_at ≤ (maxByMeasuredAt m0 ms).measured_at := by
  induction ms generalizing m0 with
  | nil => exact ⟨Or.inl rfl, le_refl _, fun m hm => absurd hm (List.not_mem_nil m)⟩
  | cons x xs ih =>
      have hstep : maxByMeasuredAt m0 (x :: xs) =
          maxByMeasuredAt (if m0.measured_at < x.measured_at then x else m0) xs := rfl
      by_cases hlt : m0.measured_at < x.measured_at
      · rw [hstep, if_pos hlt]
        obtain ⟨hmem, hbase, hall⟩ := ih x
        refine ⟨?_, le_trans (le_of_lt hlt) hbase, ?_⟩
        · rcases hmem with h | h
          · exact Or.inr (by rw [h]; exact List.mem_cons_self x xs)
          · exact Or.inr (List.mem_cons_of_mem x h)
        · intro m hm
          rcases List.mem_cons.mp hm with rfl | hm'
          · exact hbase
          · exact hall m hm'
      · rw [hstep, if_neg hlt]
        obtain ⟨hmem, hbase, hall⟩ := ih m0
        refine ⟨?_, hbase, ?_⟩
        · rcases hmem with h | h
          · exact Or.inl h
          · exact Or.inr (List.mem_cons_of_mem x h)
        · intro m hm
          rcases List.mem_cons.mp hm with rfl | hm'
          · exact le_trans (le_of_not_lt hlt) hbase
          · exact hall m hm'

theorem progressPercent_bounds (metric : ValueMetric) (current : Option ℚ) :
    0 ≤ progressPercent metric current ∧ progressPercent metric current ≤ 100 := by
  rw [progressPercent, pymin_eq_min, pymax_eq_max]
  exact ⟨le_min (by norm_num) (le_max_left 0 _), min_le_left _ _⟩

/-! ### Claim theorems -/

/-- C1: for every metric whose current value is present and whose target differs
from the baseline, `progress_percent` is `(current - baseline) / (target -
baseline) * 100` clamped to `[0, 100]`; for the template's System Availability
metric (baseline 95, target 99.9) a current value of 99.5 yields `4500/49`,
which lies strictly between 91.8 and 91.9 (≈ 91.8). -/
theorem c1_progress_percent_formula :
    (∀ (metric : ValueMetric) (c : ℚ),
        metric.target_value ≠ metric.baseline_value →
        progressPercent metric (some c) =
          min 100 (max 0
            ((c - metric.baseline_value) /
              (metric.target_value - metric.baseline_value) * 100))) ∧
    progressPercent availabilityMetric (some (995/10)) = 4500/49 ∧
    (918/10 : ℚ) < 4500/49 ∧ (4500/49 : ℚ) < 919/10 := by
  refine ⟨?_, ?_, by norm_num, by norm_num⟩
  · intro metric c h
    rw [progressPercent, pymin_eq_min, pymax_eq_max]
    simp only [progressRaw, if_pos h]
  · simp only [progressPercent, progressRaw, pymin, pymax, availabilityMetric]
    norm_num

/-- Witness for C1 at the System Availability metric with current value 97. -/
theorem c1_progress_percent_formula_witness :
    availabilityMetric.target_value ≠ availabilityMetric.baseline_value ∧
    progressPercent availabilityMetric (some 97) =
      min 100 (max 0 ((97 - availabilityMetric.baseline_value) /
        (availabilityMetric.target_value - availabilityMetric.baseline_value) * 100)) :=
  ⟨by norm_num [availabilityMetric],
   c1_progress_percent_formula.1 availabilityMetric 97
     (by norm_num [availabilityMetric])⟩

/-- C2: `progress_percent` is 0 when the current value is absent, and 0 when
target equals baseline, whatever the current value; both cases return rather
than fail (the embedding is a total function). -/
theorem c2_progress_percent_degenerate :
    (∀ metric : ValueMetric, progressPercent metric none = 0) ∧
    (∀ (metric : ValueMetric) (c : ℚ),
        metric.target_value = metric.baseline_value →
        progressPercent metric (some c) = 0) := by
  constructor
  · intro metric
    simp only [progressPercent, progressRaw]
    norm_num [pymin, pymax]
  · intro metric c h
    simp only [progressPercent, progressRaw, if_neg (not_ne_iff.mpr h)]
    norm_num [pymin, pymax]

/-- Witness for C2 at a metric with target = baseline and current value 42. -/
theorem c2_progress_percent_degenerate_witness :
    progressPercent ⟨"id", "M", MetricType.score, 60, 60, none, true⟩ (some 42) = 0 :=
  c2_progress_percent_degenerate.2 ⟨"id", "M", MetricType.score, 60, 60, none, true⟩
    42 rfl

/-- C4: the ROI contribution of a metric with a present current value is the
current value itself for currency metrics, the relative improvement
`(current - baseline) / baseline` for percentage metrics with positive
baseline, and nothing in every other case (percentage with non-positive
baseline, time, count, score); an absent current value contributes nothing. -/
theorem c4_roi_contribution_cases :
    ∀ (metric : ValueMetric) (c : ℚ),
      (metric.metric_type = MetricType.currency →
        roiContribution metric (some c) = some c) ∧
      (metric.metric_type = MetricType.percentage →
        0 < metric.baseline_value →
        roiContribution metric (some c) =
          some ((c - metric.baseline_value) / metric.baseline_value)) ∧
      (metric.metric_type = MetricType.percentage →
        metric.baseline_value ≤ 0 →
        roiContribution metric (some c) = none) ∧
      (metric.metric_type = MetricType.time ∨
        metric.metric_type = MetricType.count ∨
        metric.metric_type = MetricType.score →
        roiContribution metric (some c) = none) ∧
      roiContribution metric none = none := by
  intro metric c
  refine ⟨?_, ?_, ?_, ?_, rfl⟩
  · intro h
    simp only [roiContribution, h]
  · intro h hb
    simp only [roiContribution, h, if_pos hb]
  · intro h hb
    simp only [roiContribution, h, if_neg (not_lt.mpr hb)]
  · rintro (h | h | h) <;> simp only [roiContribution, h]

/-- Witness for C4: currency passthrough at the Infrastructure Cost metric with
current 9000, and the percentage rule at System Availability with current 99.5. -/
theorem c4_roi_contribution_cases_witness :
    roiContribution infrastructureCostMetric (some 9000) = some 9000 ∧
    roiContribution availabilityMetric (some (995/10)) =
      some (((995/10) - availabilityMetric.baseline_value) /
        availabilityMetric.baseline_value) :=
  ⟨(c4_roi_contribution_cases infrastructureCostMetric 9000).1 rfl,
   (c4_roi_contribution_cases availabilityMetric (995/10)).2.1 rfl
     (by norm_num [availabilityMetric])⟩

theorem summaryFold_bounds (p : Project) :
    ∀ (ms : List ValueMetric) (d : List (String × MetricSummary)),
      (∀ kv ∈ d, 0 ≤ kv.2.progress_percent ∧ kv.2.progress_percent ≤ 100) →
      ∀ kv ∈ ms.foldl (summaryStep p) d,
        0 ≤ kv.2.progress_percent ∧ kv.2.progress_percent ≤ 100 := by
  intro ms
  induction ms with
  | nil => intro d hd kv hkv; exact hd kv hkv
  | cons m ms ih =>
      intro d hd kv hkv
      rw [List.foldl_cons] at hkv
      refine ih _ ?_ kv hkv
      intro kv' hkv'
      have hkv2 : kv' ∈ dictInsert m.name
          ⟨getCurrentValue p m.id, m.target_value, m.baseline_value,
            progressPercent m (getCurrentValue p m.id)⟩ d := hkv'
      rcases mem_dictInsert hkv2 with heq | hmem
      · rw [heq]
        exact progressPercent_bounds m (getCurrentValue p m.id)
      · exact hd kv' hmem

/-- C3: `progress_percent` always lies in `[0, 100]`: both as a function of any
metric and current value, and for every entry actually stored in a dashboard's
`metrics_summary`; the cost example (baseline 10000, target 8000, current
12000) has a negative raw ratio and clamps to 0. -/
theorem c3_progress_percent_clamped :
    (∀ (metric : ValueMetric) (current : Option ℚ),
        0 ≤ progressPercent metric current ∧ progressPercent metric current ≤ 100) ∧
    (∀ (p : Project) (kv : String × MetricSummary), kv ∈ metricsSummary p →
        0 ≤ kv.2.progress_percent ∧ kv.2.progress_percent ≤ 100) ∧
    progressPercent infrastructureCostMetric (some 12000) = 0 := by
  refine ⟨progressPercent_bounds, ?_, ?_⟩
  · intro p kv hkv
    exact summaryFold_bounds p p.metrics [] (by intro kv' h; cases h) kv hkv
  · simp only [progressPercent, progressRaw, pymin, pymax, infrastructureCostMetric]
    norm_num

/-- Witness for C3 at a concrete dashboard entry: the summary of a one-metric
project stores a `progress_percent` within bounds. -/
theorem c3_progress_percent_clamped_witness :
    0 ≤ (("Infrastructure Cost",
        MetricSummary.mk none (8000 : ℚ) 10000 (progressPercent infrastructureCostMetric none)) :
          String × MetricSummary).2.progress_percent ∧
      (("Infrastructure Cost",
        MetricSummary.mk none (8000 : ℚ) 10000 (progressPercent infrastructureCostMetric none)) :
          String × MetricSummary).2.progress_percent ≤ 100 :=
  c3_progress_percent_clamped.2.1
    ⟨"P", "infrastructure", "planning", none, [infrastructureCostMetric], [], []⟩
    ("Infrastructure Cost",
      MetricSummary.mk none (8000 : ℚ) 10000 (progressPercent infrastructureCostMetric none))
    (by
      simp only [metricsSummary, summaryStep, List.foldl_cons, List.foldl_nil,
        dictInsert, infrastructureCostMetric, getCurrentValue]
      simp)

/-- The claim's (and spec §4.1's) portfolio ROI, following the spec's words:
the sum of `roi_contribution` over all ACTIVE metrics with a defined current
value. Stated only to compare with the code's `currentRoi`. -/
def specPortfolioRoi (p : Project) : ℚ :=
  (p.metrics.filterMap (fun m =>
    if m.is_active then roiContribution m (getCurrentValue p m.id) else none)).sum

/-- A project whose single currency metric is inactive but measured. -/
def inactiveCostProject : Project :=
  ⟨"P", "infrastructure", "planning", none,
   [⟨"m1", "Cost", MetricType.currency, 8000, 10000, none, false⟩],
   [⟨"m1", 100, 1, ""⟩], []⟩

/-- One iteration of the `roi_total` loop of
`ProjectService.get_portfolio_overview` (project_service.py lines 183-186):
only a non-`None` cached `current_value` of a currency metric is added. -/
def serviceRoiStep (t : ℚ) (m : ValueMetric) : ℚ :=
  match m.current_value with
  | some v => if m.metric_type = MetricType.currency then t + v else t
  | none => t

/-- The per-project `current_roi` of `ProjectService.get_portfolio_overview`:
the accumulated `roi_total`, starting from 0. -/
def serviceCurrentRoi (p : Project) : ℚ :=
  p.metrics.foldl serviceRoiStep 0

/-- A project with an inactive measured currency metric (cached 100) and an
active measured percentage metric (baseline 50, cached 60, so its
`roi_contribution` is (60-50)/50 = 1/5). -/
def mixedPortfolioProject : Project :=
  ⟨"P", "infrastructure", "active", none,
   [⟨"mA", "Cost", MetricType.currency, 0, 0, some 100, false⟩,
    ⟨"mB", "Adoption", MetricType.percentage, 80, 50, some 60, true⟩],
   [⟨"mA", 100, 1, ""⟩, ⟨"mB", 60, 1, ""⟩], []⟩

/-- A project with two active measured currency metrics sharing a name. -/
def duplicateNamesProject : Project :=
  ⟨"P", "infrastructure", "active", none,
   [⟨"m1", "Cost", MetricType.currency, 0, 0, some 10, true⟩,
    ⟨"m2", "Cost", MetricType.currency, 0, 0, some 20, true⟩],
   [⟨"m1", 10, 1, ""⟩, ⟨"m2", 20, 1, ""⟩], []⟩

theorem serviceRoiFold (ms : List ValueMetric) :
    ∀ t : ℚ, ms.foldl serviceRoiStep t =
      t + (ms.filterMap (fun m =>
        if m.metric_type = MetricType.currency then m.current_value else none)).sum := by
  induction ms with
  | nil => intro t; simp
  | cons m ms ih =>
      intro t
      rw [List.foldl_cons]
      cases hcv : m.current_value with
      | none =>
          have hf : (fun m' : ValueMetric =>
              if m'.metric_type = MetricType.currency then m'.current_value
              else none) m = none := by
            simp [hcv]
          have hfm : (m :: ms).filterMap (fun m' : ValueMetric =>
              if m'.metric_type = MetricType.currency then m'.current_value
              else none) = ms.filterMap (fun m' : ValueMetric =>
              if m'.metric_type = MetricType.currency then m'.current_value
              else none) := List.filterMap_cons_none hf
          rw [hfm]
          have hstep : serviceRoiStep t m = t := by
            simp only [serviceRoiStep, hcv]
          rw [hstep]
          exact ih t
      | some v =>
          by_cases hmt : m.metric_type = MetricType.currency
          · have hf : (fun m' : ValueMetric =>
                if m'.metric_type = MetricType.currency then m'.current_value
                else none) m = some v := by
              simp [hcv, hmt]
            have hfm : (m :: ms).filterMap (fun m' : ValueMetric =>
                if m'.metric_type = MetricType.currency then m'.current_value
                else none) = v :: ms.filterMap (fun m' : ValueMetric =>
                if m'.metric_type = MetricType.currency then m'.current_value
                else none) := List.filterMap_cons_some hf
            rw [hfm]
            have hstep : serviceRoiStep t m = t + v := by
              simp only [serviceRoiStep, hcv, if_pos hmt]
            rw [hstep, ih (t + v), List.sum_cons]
            ring
          · have hf : (fun m' : ValueMetric =>
                if m'.metric_type = MetricType.currency then m'.current_value
                else none) m = none := by
              simp [hcv, hmt]
            have hfm : (m :: ms).filterMap (fun m' : ValueMetric =>
                if m'.metric_type = MetricType.currency then m'.current_value
                else none) = ms.filterMap (fun m' : ValueMetric =>
                if m'.metric_type = MetricType.currency then m'.current_value
                else none) := List.filterMap_cons_none hf
            rw [hfm]
            have hstep : serviceRoiStep t m = t := by
              simp only [serviceRoiStep, hcv, if_neg hmt]
            rw [hstep]
            exact ih t

theorem roiFold_sum (p : Project) :
    ∀ (ms : List ValueMetric) (d : List (String × ℚ)),
      (∀ m ∈ ms, ∀ kv ∈ d, kv.1 ≠ m.name) →
      (ms.map (fun m => m.name)).Nodup →
      ((ms.foldl (roiStep p) d).map (fun kv => kv.2)).sum =
        (d.map (fun kv => kv.2)).sum +
          (ms.filterMap (fun m => roiContribution m (getCurrentValue p m.id))).sum := by
  intro ms
  induction ms with
  | nil => intro d _ _; simp
  | cons m ms ih =>
      intro d hdisj hnodup
      rw [List.map_cons, List.nodup_cons] at hnodup
      rw [List.foldl_cons, List.filterMap_cons]
      cases hc : roiContribution m (getCurrentValue p m.id) with
      | none =>
          have hstep : roiStep p d m = d := by
            simp only [roiStep, hc]
          rw [hstep]
          exact ih d (fun m' hm' kv hkv => hdisj m' (List.mem_cons_of_mem m hm') kv hkv)
            hnodup.2
      | some r =>
          have hstep : roiStep p d m = d ++ [(m.name, r)] := by
            simp only [roiStep, hc]
            exact keys_dictInsert (fun kv hkv => hdisj m (List.mem_cons_self m ms) kv hkv)
          rw [hstep]
          have hdisj' : ∀ m' ∈ ms, ∀ kv ∈ d ++ [(m.name, r)], kv.1 ≠ m'.name := by
            intro m' hm' kv hkv
            rcases List.mem_append.mp hkv with hd | hs
            · exact hdisj m' (List.mem_cons_of_mem m hm') kv hd
            · rw [List.mem_singleton.mp hs]
              intro hcontra
              refine hnodup.1 ?_
              have : m.name = m'.name := hcontra
              rw [this]
              exact List.mem_map_of_mem (fun x => x.name) hm'
          rw [ih (d ++ [(m.name, r)]) hdisj' hnodup.2]
          simp only [List.map_append, List.sum_append, List.map_cons, List.map_nil,
            List.sum_cons, List.sum_nil]
          ring

/-- C5 counterexample: the claim fails on both cited implementations of the
per-project `current_roi` — (a) legacy `calculate_roi` does not filter on
`is_active`: the inactive measured currency metric alone yields
`current_roi = 100` against the claimed active-only sum 0; (b) the service
`get_portfolio_overview` sums only the cached `current_value` of currency
metrics: a project with an inactive currency metric (cache 100) and an active
percentage metric (contribution 1/5) gets 100 where the claim demands 1/5, so
percentage contributions are not included there (and `is_active` is ignored
there too); (c) legacy `roi_data` is a dict keyed by metric name: two active
currency metrics sharing a name collapse to the later value (20) instead of
the claimed per-metric sum 30. -/
theorem c5_portfolio_roi_counterexample :
    (currentRoi inactiveCostProject = 100 ∧
      specPortfolioRoi inactiveCostProject = 0 ∧
      currentRoi inactiveCostProject ≠ specPortfolioRoi inactiveCostProject) ∧
    (serviceCurrentRoi mixedPortfolioProject = 100 ∧
      specPortfolioRoi mixedPortfolioProject = 1/5 ∧
      serviceCurrentRoi mixedPortfolioProject ≠ specPortfolioRoi mixedPortfolioProject) ∧
    (currentRoi duplicateNamesProject = 20 ∧
      (duplicateNamesProject.metrics.filterMap (fun m =>
        roiContribution m (getCurrentValue duplicateNamesProject m.id))).sum = 30 ∧
      currentRoi duplicateNamesProject ≠ 30) := by
  have h1 : currentRoi inactiveCostProject = 100 := by
    simp only [currentRoi, calculateRoi, inactiveCostProject, List.foldl_cons,
      List.foldl_nil, roiStep, roiContribution, getCurrentValue, maxByMeasuredAt,
      dictInsert]
    norm_num
  have h2 : specPortfolioRoi inactiveCostProject = 0 := by
    simp only [specPortfolioRoi, inactiveCostProject, List.filterMap_cons]
    norm_num
  have h3 : serviceCurrentRoi mixedPortfolioProject = 100 := by
    have e3 : serviceCurrentRoi mixedPortfolioProject = (0 : ℚ) + 100 := rfl
    rw [e3]
    norm_num
  have h4 : specPortfolioRoi mixedPortfolioProject = 1/5 := by
    have e4 : specPortfolioRoi mixedPortfolioProject = ((60 : ℚ) - 50) / 50 + 0 := rfl
    rw [e4]
    norm_num
  have h5 : currentRoi duplicateNamesProject = 20 := by
    have e5 : currentRoi duplicateNamesProject = (20 : ℚ) + 0 := rfl
    rw [e5]
    norm_num
  have h6 : (duplicateNamesProject.metrics.filterMap (fun m =>
      roiContribution m (getCurrentValue duplicateNamesProject m.id))).sum = 30 := by
    have e6 : (duplicateNamesProject.metrics.filterMap (fun m =>
        roiContribution m (getCurrentValue duplicateNamesProject m.id))).sum =
        (10 : ℚ) + (20 + 0) := rfl
    rw [e6]
    norm_num
  exact ⟨⟨h1, h2, by rw [h1, h2]; norm_num⟩,
    ⟨h3, h4, by rw [h3, h4]; norm_num⟩,
    ⟨h5, h6, by rw [h5]; norm_num⟩⟩

/-- C5 (amended): the legacy per-project `current_roi` equals the sum of
`roi_contribution` — currency and percentage alike — over exactly those
metrics with a defined derived current value, regardless of `is_active` and
provided metric names are pairwise distinct (the ROI dict is keyed by name);
the service per-project `current_roi` equals the sum of the cached
`current_value` over exactly the currency metrics with a defined cache,
regardless of `is_active`, with percentage and every other unit-type
excluded. -/
theorem c5_portfolio_roi_sum :
    (∀ p : Project, (p.metrics.map (fun m => m.name)).Nodup →
      currentRoi p =
        (p.metrics.filterMap (fun m =>
          roiContribution m (getCurrentValue p m.id))).sum) ∧
    (∀ p : Project,
      serviceCurrentRoi p =
        (p.metrics.filterMap (fun m =>
          if m.metric_type = MetricType.currency then m.current_value
          else none)).sum) := by
  constructor
  · intro p h
    have := roiFold_sum p p.metrics [] (by intro m _ kv hkv; cases hkv) h
    simpa [currentRoi, calculateRoi] using this
  · intro p
    have := serviceRoiFold p.metrics 0
    simpa [serviceCurrentRoi] using this

/-- Witness for C5 (amended): the legacy equation at the inactive-cost project
(whose single metric name is trivially duplicate-free) and the service
equation at the mixed project. -/
theorem c5_portfolio_roi_sum_witness :
    currentRoi inactiveCostProject =
      (inactiveCostProject.metrics.filterMap (fun m =>
        roiContribution m (getCurrentValue inactiveCostProject m.id))).sum ∧
    serviceCurrentRoi mixedPortfolioProject =
      (mixedPortfolioProject.metrics.filterMap (fun m =>
        if m.metric_type = MetricType.currency then m.current_value
        else none)).sum :=
  ⟨c5_portfolio_roi_sum.1 inactiveCostProject (by simp [inactiveCostProject]),
   c5_portfolio_roi_sum.2 mixedPortfolioProject⟩

/-- A project with an active metric whose cache holds 7 although it has no
measurements at all. -/
def cachedSevenProject : Project :=
  ⟨"P", "infrastructure", "planning", none,
   [⟨"m1", "Avail", MetricType.percentage, 100, 95, some 7, true⟩], [], []⟩

/-- C6 counterexample: the service `get_project_dashboard` mutates the project
state — on a project whose active metric carries a cached `current_value` of 7
but has no measurements, generating the dashboard resets the cache to `None`,
so the metrics are not left as they were. -/
theorem c6_side_effect_counterexample :
    cachedValue cachedSevenProject "m1" = some 7 ∧
    cachedValue (serviceDashboardRefresh cachedSevenProject) "m1" = none ∧
    serviceDashboardRefresh cachedSevenProject ≠ cachedSevenProject := by
  refine ⟨rfl, rfl, ?_⟩
  intro h
  have h7 : cachedValue (serviceDashboardRefresh cachedSevenProject) "m1" =
      cachedValue cachedSevenProject "m1" := by rw [h]
  simp only [cachedValue, findMetric] at h7
  exact Option.noConfusion (h7.trans rfl)

/-- C6 (amended): the legacy `Project.get_value_dashboard` has no side effects
— the project state it returns is its input unchanged; the service
`get_project_dashboard` leaves measurements and deliverables unchanged and
alters metrics only in their mutable `current_value` cache (all other metric
fields survive the refresh). -/
theorem c6_dashboard_side_effects :
    (∀ (today : ℕ) (p : Project), (getValueDashboard today p).2 = p) ∧
    (∀ db : Project,
      (serviceDashboardRefresh db).measurements = db.measurements ∧
      (serviceDashboardRefresh db).deliverables = db.deliverables ∧
      (serviceDashboardRefresh db).metrics.map eraseCache =
        db.metrics.map eraseCache) := by
  constructor
  · intro today p
    rw [getValueDashboard]
    cases recentEntries p <;> rfl
  · intro db
    refine ⟨rfl, rfl, ?_⟩
    show (db.metrics.map _).map eraseCache = _
    rw [List.map_map]
    have hfun : (eraseCache ∘ fun m =>
        if m.is_active then { m with current_value := getCurrentValue db m.id }
        else m) = eraseCache := by
      funext m
      by_cases h : m.is_active
      · simp [Function.comp, h, eraseCache]
      · simp [Function.comp, h]
    rw [hfun]

theorem findMetric_setCachedValueFirst (metricId : String) (v : ℚ) :
    ∀ l : List ValueMetric,
      (setCachedValueFirst metricId v l).find? (fun m => m.id == metricId) =
        (l.find? (fun m => m.id == metricId)).map
          (fun m => { m with current_value := some v }) := by
  intro l
  induction l with
  | nil => rfl
  | cons m ms ih =>
      by_cases h : (m.id == metricId) = true
      · simp [setCachedValueFirst, h, List.find?_cons]
      · simp [setCachedValueFirst, h, List.find?_cons, ih]

/-- A fresh project with one metric and no measurements yet. -/
def backfillProject : Project :=
  ⟨"P", "infrastructure", "active", none,
   [⟨"m1", "M", MetricType.currency, 0, 0, none, true⟩], [], []⟩

/-- `backfillProject` after recording value 10 at time 2, then backfilling
value 5 at the earlier time 1. -/
def staleProject : Project :=
  createMeasurement ⟨"m1", 5, "", 1⟩ (createMeasurement ⟨"m1", 10, "", 2⟩ backfillProject)

/-- C7: `create_measurement` unconditionally overwrites the metric's cached
`current_value` with the new measurement's value, with no timestamp
comparison; after inserting value 10 at time 2 and then backfilling value 5 at
time 1, the cache holds 5 while the latest measurement by timestamp has
value 10. -/
theorem c7_cache_overwrite_goes_stale :
    (∀ (db : Project) (mc : MeasurementCreate) (m : ValueMetric),
        findMetric db mc.metric_id = some m →
        findMetric (createMeasurement mc db) mc.metric_id =
          some { m with current_value := some mc.value }) ∧
    cachedValue staleProject "m1" = some 5 ∧
    getCurrentValue staleProject "m1" = some 10 ∧
    cachedValue staleProject "m1" ≠ getCurrentValue staleProject "m1" := by
  refine ⟨?_, rfl, rfl, ?_⟩
  · intro db mc m hm
    rw [findMetric] at hm
    show (setCachedValueFirst mc.metric_id mc.value db.metrics).find?
        (fun m' => m'.id == mc.metric_id) = _
    rw [findMetric_setCachedValueFirst, hm]
    rfl
  · intro h
    have h5 : some (5 : ℚ) = some (10 : ℚ) := h
    have := Option.some.inj h5
    norm_num at this

/-- Witness for C7: creating the first measurement on `backfillProject` sets
the cache to the created value. -/
theorem c7_cache_overwrite_goes_stale_witness :
    findMetric (createMeasurement ⟨"m1", 10, "", 2⟩ backfillProject) "m1" =
      some ⟨"m1", "M", MetricType.currency, 0, 0, some 10, true⟩ :=
  c7_cache_overwrite_goes_stale.1 backfillProject ⟨"m1", 10, "", 2⟩
    ⟨"m1", "M", MetricType.currency, 0, 0, none, true⟩ rfl

/-- A project with two measurements sharing the same timestamp. -/
def tiedTimesProject : Project :=
  ⟨"P", "software_development", "planning", none,
   [⟨"m1", "M", MetricType.count, 0, 0, none, true⟩],
   [⟨"m1", 1, 7, ""⟩, ⟨"m1", 2, 7, ""⟩], []⟩

/-- C8 counterexample: with two measurements at the same timestamp the window
is only non-strictly ordered — Python's stable `sorted(..., reverse=True)`
keeps both, so the output is not strictly descending in timestamp. -/
theorem c8_strict_order_counterexample :
    recentMeasurements tiedTimesProject 5 =
      [⟨"m1", 1, 7, ""⟩, ⟨"m1", 2, 7, ""⟩] ∧
    ¬ (recentMeasurements tiedTimesProject 5).Pairwise
        (fun a b => b.measured_at < a.measured_at) := by
  refine ⟨rfl, ?_⟩
  intro h
  have heq : recentMeasurements tiedTimesProject 5 =
      [⟨"m1", 1, 7, ""⟩, ⟨"m1", 2, 7, ""⟩] := rfl
  rw [heq] at h
  have := (List.pairwise_cons.mp h).1 ⟨"m1", 2, 7, ""⟩ (List.mem_cons_self _ _)
  exact lt_irrefl 7 this

/-- C8 (amended): `recent_measurements` with `n = 5` returns at most 5 entries
drawn from the project's measurements, ordered by non-increasing timestamp —
strictly descending whenever the timestamps are pairwise distinct — and
returns exactly the measurement count when the project has fewer than 5. -/
theorem c8_recent_measurements_window :
    ∀ p : Project,
      (recentMeasurements p 5).length = min 5 p.measurements.length ∧
      (∀ m ∈ recentMeasurements p 5, m ∈ p.measurements) ∧
      (recentMeasurements p 5).Pairwise (fun a b => b.measured_at ≤ a.measured_at) ∧
      (p.measurements.length < 5 →
        (recentMeasurements p 5).length = p.measurements.length) ∧
      ((p.measurements.map (fun m => m.measured_at)).Nodup →
        (recentMeasurements p 5).Pairwise (fun a b => b.measured_at < a.measured_at)) := by
  intro p
  have hperm := perm_sortByMeasuredAtDesc p.measurements
  have hlen : (sortByMeasuredAtDesc p.measurements).length = p.measurements.length :=
    hperm.length_eq
  refine ⟨?_, ?_, ?_, ?_, ?_⟩
  · rw [recentMeasurements, List.length_take, hlen]
  · intro m hm
    exact hperm.mem_iff.mp (List.take_subset 5 _ hm)
  · exact List.Pairwise.sublist (List.take_sublist 5 _) (pairwise_sortByMeasuredAtDesc _)
  · intro h
    rw [recentMeasurements, List.length_take, hlen, min_eq_right (le_of_lt h)]
  · intro hnd
    have hnd' : ((sortByMeasuredAtDesc p.measurements).map
        (fun m => m.measured_at)).Nodup :=
      (List.Perm.nodup_iff (hperm.map _)).mpr hnd
    have hne : (sortByMeasuredAtDesc p.measurements).Pairwise
        (fun a b => a.measured_at ≠ b.measured_at) := List.pairwise_map.mp hnd'
    have hlt : (sortByMeasuredAtDesc p.measurements).Pairwise
        (fun a b => b.measured_at < a.measured_at) :=
      ((pairwise_sortByMeasuredAtDesc p.measurements).and hne).imp
        (fun hab => lt_of_le_of_ne hab.1 (Ne.symm hab.2))
    exact List.Pairwise.sublist (List.take_sublist 5 _) hlt

/-- A project with two measurements at distinct timestamps. -/
def shortProject : Project :=
  ⟨"P", "infrastructure", "planning", none, [],
   [⟨"m1", 1, 2, ""⟩, ⟨"m2", 2, 1, ""⟩], []⟩

/-- Witness for C8 (amended): the two-measurement project returns exactly its
two measurements, strictly descending in timestamp. -/
theorem c8_recent_measurements_window_witness :
    (recentMeasurements shortProject 5).length = shortProject.measurements.length ∧
    (recentMeasurements shortProject 5).Pairwise
      (fun a b => b.measured_at < a.measured_at) :=
  ⟨(c8_recent_measurements_window shortProject).2.2.2.1 (by norm_num [shortProject]),
   (c8_recent_measurements_window shortProject).2.2.2.2 (by norm_num [shortProject])⟩

/-- C9: the derived current value of a metric is `None` exactly when the metric
has no measurements, and otherwise is the value of one of the metric's
measurements whose `measured_at` is maximal among them. -/
theorem c9_derived_current_value :
    ∀ (p : Project) (metricId : String),
      (getCurrentValue p metricId = none ↔
        p.measurements.filter (fun m => m.metric_id == metricId) = []) ∧
      (∀ q : ℚ, getCurrentValue p metricId = some q →
        ∃ m, m ∈ p.measurements ∧ m.metric_id = metricId ∧ m.value = q ∧
          ∀ m' ∈ p.measurements, m'.metric_id = metricId →
            m'.measured_at ≤ m.measured_at) := by
  intro p metricId
  constructor
  · cases hf : p.measurements.filter (fun m => m.metric_id == metricId) with
    | nil => simp [getCurrentValue, hf]
    | cons m ms => simp [getCurrentValue, hf]
  · intro q hq
    rw [getCurrentValue] at hq
    cases hf : p.measurements.filter (fun m => m.metric_id == metricId) with
    | nil => rw [hf] at hq; exact Option.noConfusion hq
    | cons m ms =>
        rw [hf] at hq
        have hval : (maxByMeasuredAt m ms).value = q := Option.some.inj hq
        obtain ⟨hmem, hbase, hall⟩ := maxByMeasuredAt_spec ms m
        have hmemf : maxByMeasuredAt m ms ∈
            p.measurements.filter (fun m' => m'.metric_id == metricId) := by
          rw [hf]
          rcases hmem with h | h
          · rw [h]; exact List.mem_cons_self m ms
          · exact List.mem_cons_of_mem m h
        have hbeq : ((maxByMeasuredAt m ms).metric_id == metricId) = true :=
          (List.mem_filter.mp hmemf).2
        refine ⟨maxByMeasuredAt m ms, List.mem_of_mem_filter hmemf,
          eq_of_beq hbeq, hval, ?_⟩
        intro m' hm' hid
        have hm'f : m' ∈ p.measurements.filter (fun x => x.metric_id == metricId) :=
          List.mem_filter.mpr ⟨hm', by rw [hid]; exact beq_self_eq_true _⟩
        rw [hf] at hm'f
        rcases List.mem_cons.mp hm'f with rfl | h
        · exact hbase
        · exact hall m' h

/-- Witness for C9: on the backfilled project, the derived value 10 comes from
a measurement with maximal timestamp. -/
theorem c9_derived_current_value_witness :
    ∃ m, m ∈ staleProject.measurements ∧ m.metric_id = "m1" ∧ m.value = 10 ∧
      ∀ m' ∈ staleProject.measurements, m'.metric_id = "m1" →
        m'.measured_at ≤ m.measured_at :=
  (c9_derived_current_value staleProject "m1").2 10 rfl

/-- C10: `record_measurement` raises `ValueError` exactly when the metric id is
not among the project's metrics; on error the project (in particular its
measurements list) is unchanged, and on success exactly one measurement with
the given metric id, value and notes is appended, metrics untouched. -/
theorem c10_record_measurement :
    ∀ (p : Project) (metricId : String) (value : ℚ) (notes : String) (now : ℕ),
      ((recordMeasurement p metricId value notes now).1 = Except.ok () ↔
        ∃ m ∈ p.metrics, m.id = metricId) ∧
      ((recordMeasurement p metricId value notes now).1 ≠ Except.ok () →
        (recordMeasurement p metricId value notes now).2 = p) ∧
      ((∃ m ∈ p.metrics, m.id = metricId) →
        (recordMeasurement p metricId value notes now).2.measurements =
          p.measurements ++ [⟨metricId, value, now, notes⟩] ∧
        (recordMeasurement p metricId value notes now).2.metrics = p.metrics) := by
  intro p metricId v notes now
  by_cases hc : (p.metrics.any (fun m => m.id == metricId)) = true
  · have hex : ∃ m ∈ p.metrics, m.id = metricId := by
      obtain ⟨m, hm, hb⟩ := List.any_eq_true.mp hc
      exact ⟨m, hm, eq_of_beq hb⟩
    rw [recordMeasurement, if_pos hc]
    exact ⟨⟨fun _ => hex, fun _ => rfl⟩, fun h => absurd rfl h, fun _ => ⟨rfl, rfl⟩⟩
  · have hnex : ¬ ∃ m ∈ p.metrics, m.id = metricId := by
      rintro ⟨m, hm, he⟩
      exact hc (List.any_eq_true.mpr ⟨m, hm, by rw [he]; exact beq_self_eq_true _⟩)
    rw [recordMeasurement, if_neg hc]
    exact ⟨⟨fun h => Except.noConfusion h, fun hex => absurd hex hnex⟩,
      fun _ => rfl, fun hex => absurd hex hnex⟩

/-- Witness for C10: recording on the fresh one-metric project appends the
measurement. -/
theorem c10_record_measurement_witness :
    (recordMeasurement backfillProject "m1" 3 "note" 4).2.measurements =
      backfillProject.measurements ++ [⟨"m1", 3, 4, "note"⟩] :=
  ((c10_record_measurement backfillProject "m1" 3 "note" 4).2.2
    ⟨⟨"m1", "M", MetricType.currency, 0, 0, none, true⟩,
      List.mem_singleton.mpr rfl, rfl⟩).1

end ValuePM
